import Mathlib

/-!
Shallow embedding of the nexBT LED wall calculator core
(`utils.ts` / `constants.ts` / `components/Visualizer.tsx`).

JavaScript `number` arithmetic is modelled over `ℚ` (all inputs and
constants of the program are decimal literals and the operations are
`+ - * /`, `Math.floor`, `Math.ceil`, `Math.round`); integer-valued
quantities produced by `floor`/`ceil`/`round` are kept in `ℤ`.
-/

set_option allowUnsafeReducibility true in
attribute [semireducible] Rat.add Rat.mul Rat.sub Rat.inv Rat.div

namespace LedCalc

/-- JS `Math.floor` (the computable `Rat.floor`). -/
def jsFloor (q : ℚ) : ℤ := q.floor

/-- JS `Math.ceil` (the computable `Rat.ceil`). -/
def jsCeil (q : ℚ) : ℤ := q.ceil

/-- JS `Math.round`: rounds half toward positive infinity. -/
def jsRound (q : ℚ) : ℤ := (q + 1/2).floor

theorem jsFloor_eq (q : ℚ) : jsFloor q = ⌊q⌋ := by
  rw [jsFloor, Rat.floor_def', Rat.floor_def]

theorem ratCeil_eq_intCeil (q : ℚ) : q.ceil = ⌈q⌉ := by
  by_cases h : q.den = 1
  · have hq : (q.num : ℚ) = q := Rat.coe_int_num_of_den_eq_one h
    simp only [Rat.ceil, if_pos h]
    conv_rhs => rw [← hq]
    rw [Int.ceil_intCast]
  · have hne : ((⌊q⌋ : ℤ) : ℚ) ≠ q := by
      intro he
      apply h
      rw [← he]
      exact Rat.den_intCast _
    have hlt : ⌊q⌋ < ⌈q⌉ := by
      rcases lt_or_eq_of_le (Int.floor_le_ceil q) with hl | he
      · exact hl
      · exfalso
        apply hne
        have h1 := Int.floor_le q
        have h2 := Int.le_ceil q
        rw [he] at h1 ⊢
        exact le_antisymm h1 h2
    have hceil : ⌈q⌉ = ⌊q⌋ + 1 :=
      le_antisymm (Int.ceil_le_floor_add_one q) hlt
    simp only [Rat.ceil, if_neg h]
    rw [hceil, Rat.floor_def]

theorem jsCeil_eq (q : ℚ) : jsCeil q = ⌈q⌉ := ratCeil_eq_intCeil q

theorem jsRound_eq (q : ℚ) : jsRound q = ⌊q + 1/2⌋ := by
  rw [jsRound, Rat.floor_def', Rat.floor_def]

/-- The `'indoor' | 'outdoor'` union type. -/
inductive Environment
  | indoor
  | outdoor
deriving DecidableEq, Repr

/-- One entry of `POWER_SPECS` (constants.ts). -/
structure PowerSpec where
  peakWattsPerPanel : ℚ
  avgWattsPerPanel : ℚ
deriving DecidableEq, Repr

/-- `POWER_SPECS` from constants.ts. -/
def POWER_SPECS : Environment → PowerSpec
  | .indoor => ⟨250, 100⟩
  | .outdoor => ⟨500, 200⟩

/-- `PIXEL_PITCHES` from constants.ts: [1.25, 1.56, 1.95, 2.5, 2.6, 2.9, 3.91]. -/
def PIXEL_PITCHES : List ℚ := [5/4, 39/25, 39/20, 5/2, 13/5, 29/10, 391/100]

/-- `MAX_PIXELS_PER_PORT` from constants.ts. -/
def MAX_PIXELS_PER_PORT : ℚ := 650000

/-- `SAFE_CAPACITY_PERCENTAGE` from constants.ts. -/
def SAFE_CAPACITY_PERCENTAGE : ℚ := 85/100

/-- `SAFE_PIXELS_PER_PORT` from constants.ts (552,500). -/
def SAFE_PIXELS_PER_PORT : ℚ := MAX_PIXELS_PER_PORT * SAFE_CAPACITY_PERCENTAGE

/-- `STANDARD_BREAKER_SIZES` from constants.ts. -/
def STANDARD_BREAKER_SIZES : List ℚ :=
  [20, 30, 40, 50, 60, 70, 80, 100, 125, 150, 175, 200, 225, 250,
   300, 350, 400, 500, 600, 800, 1000, 1200]

/-- The `CalculationResult` interface (types.ts). -/
structure CalculationResult where
  pitch : ℚ
  resolutionWidth : ℤ
  resolutionHeight : ℤ
  resolutionClass : String
  totalPixels : ℤ
  lanPorts : ℤ
  controller : String
  peakPowerWatts : ℚ
  avgPowerWatts : ℚ
  amps220v : ℚ
  circuits220v : ℤ
  mainBreakerSize : ℚ
  areaSqM : ℚ
  cabinetsWidth : ℤ
  cabinetsHeight : ℤ
  totalCabinets : ℤ
deriving DecidableEq, Repr

/-- `pixelsPerCabinetW` inside `calculateRequirements` (utils.ts line 32). -/
def pixelsPerCabinetW (pitch : ℚ) : ℤ := jsRound (500 / pitch)

/-- `pixelsPerCabinetH` inside `calculateRequirements` (utils.ts line 33). -/
def pixelsPerCabinetH (pitch : ℚ) : ℤ := jsRound (1000 / pitch)

/-- `pixelsPerCabinet` inside `calculateRequirements` (utils.ts line 34). -/
def pixelsPerCabinet (pitch : ℚ) : ℤ := pixelsPerCabinetW pitch * pixelsPerCabinetH pitch

/-- The resolution-classification cascade (utils.ts lines 37-44). -/
def resolutionClassOf (longSide shortSide : ℤ) : String :=
  if 7680 ≤ longSide ∧ 4320 ≤ shortSide then "8K"
  else if 3840 ≤ longSide ∧ 2160 ≤ shortSide then "4K"
  else if 2560 ≤ longSide ∧ 1440 ≤ shortSide then "QHD"
  else if 1920 ≤ longSide ∧ 1080 ≤ shortSide then "FHD"
  else if 1280 ≤ longSide ∧ 720 ≤ shortSide then "HD"
  else "SD"

/-- The controller-selection cascade (utils.ts lines 55-59). -/
def controllerOf (lanPorts : ℤ) : String :=
  if lanPorts = 1 then "TB20"
  else if lanPorts ≤ 2 then "MCTRL300"
  else if lanPorts ≤ 4 then "MCTRL600"
  else if lanPorts ≤ 16 then "VX16s"
  else "Multiple VX16s"

/-- `calculateRequirements` (utils.ts lines 12-107). -/
def calculateRequirements (widthMm heightMm pitch : ℚ)
    (environment : Environment) : CalculationResult :=
  let CABINET_WIDTH_MM : ℚ := 500
  let CABINET_HEIGHT_MM : ℚ := 1000
  let cabinetsWidth := jsCeil (widthMm / CABINET_WIDTH_MM)
  let cabinetsHeight := jsCeil (heightMm / CABINET_HEIGHT_MM)
  let totalCabinets := cabinetsWidth * cabinetsHeight
  let resolutionWidth := jsRound (widthMm / pitch)
  let resolutionHeight := jsRound (heightMm / pitch)
  let totalPixels := resolutionWidth * resolutionHeight
  let longSide := max resolutionWidth resolutionHeight
  let shortSide := min resolutionWidth resolutionHeight
  let resolutionClass := resolutionClassOf longSide shortSide
  let maxCabinetsPerPort := jsFloor (SAFE_PIXELS_PER_PORT / (pixelsPerCabinet pitch : ℚ))
  let effectiveCabinetsPerPort := max 1 maxCabinetsPerPort
  let lanPorts := jsCeil ((totalCabinets : ℚ) / (effectiveCabinetsPerPort : ℚ))
  let controller := controllerOf lanPorts
  let specs := POWER_SPECS environment
  let peakPowerWatts := (totalCabinets : ℚ) * specs.peakWattsPerPanel
  let avgPowerWatts := (totalCabinets : ℚ) * specs.avgWattsPerPanel
  let amps220v := peakPowerWatts / 220
  let ampsPerCabinet := specs.peakWattsPerPanel / 220
  let SAFE_LOAD_FACTOR : ℚ := 8/10
  let safeAmpsPerCircuit := 20 * SAFE_LOAD_FACTOR
  let maxCabinetsPerCircuit := jsFloor (safeAmpsPerCircuit / ampsPerCabinet)
  let effectiveCabinetsPerCircuit := max 1 maxCabinetsPerCircuit
  let circuits220v := jsCeil ((totalCabinets : ℚ) / (effectiveCabinetsPerCircuit : ℚ))
  let requiredMainAmps := amps220v * (125/100)
  let mainBreakerSize :=
    (STANDARD_BREAKER_SIZES.find? fun s => decide (requiredMainAmps ≤ s)).getD 1200
  let areaSqM := (widthMm / 1000) * (heightMm / 1000)
  { pitch := pitch
    resolutionWidth := resolutionWidth
    resolutionHeight := resolutionHeight
    resolutionClass := resolutionClass
    totalPixels := totalPixels
    lanPorts := lanPorts
    controller := controller
    peakPowerWatts := peakPowerWatts
    avgPowerWatts := avgPowerWatts
    amps220v := amps220v
    circuits220v := circuits220v
    mainBreakerSize := mainBreakerSize
    areaSqM := areaSqM
    cabinetsWidth := cabinetsWidth
    cabinetsHeight := cabinetsHeight
    totalCabinets := totalCabinets }

/-- The App `results` memo (App.tsx lines 45-52): JS `!w || !h` rejects the
falsy value 0; otherwise one `calculateRequirements` per supported pitch. -/
def appResults (width height : ℚ) (environment : Environment) : List CalculationResult :=
  if width = 0 ∨ height = 0 then []
  else PIXEL_PITCHES.map fun pitch => calculateRequirements width height pitch environment

/-- `generateAssignments` (Visualizer.tsx lines 101-117).  The imperative loop
writes, into an array initialised with `totalItems` zeros, the block sequence
`remainder` groups of size `baseSize+1` followed by groups of size `baseSize`,
truncated by the `currentItem < totalItems` guard; this is exactly the first
`totalItems` elements of that block sequence padded with the initial zeros. -/
def generateAssignments (totalItems groupCount : Nat) : List Nat :=
  let baseSize := totalItems / groupCount
  let remainder := totalItems % groupCount
  let written := (List.range groupCount).flatMap fun i =>
    List.replicate (if i < remainder then baseSize + 1 else baseSize) i
  (written ++ List.replicate totalItems 0).take totalItems

/-- The snake-index computation (Visualizer.tsx lines 129-136): even columns
run top to bottom, odd columns bottom to top. -/
def snakeIndex (x y cabinetsHeight : Nat) : Nat :=
  if x % 2 = 0 then x * cabinetsHeight + y
  else x * cabinetsHeight + (cabinetsHeight - 1 - y)

/-- One cell of `gridData.cells` (Visualizer.tsx lines 138-144).  JS
out-of-bounds indexing yields `undefined`, modelled by `Option`. -/
structure Cell where
  x : Nat
  y : Nat
  snakeIndex : Nat
  portId : Option Nat
  circuitId : Option Nat
deriving DecidableEq, Repr

/-- `gridData.cells` (Visualizer.tsx lines 119-147). -/
def gridCells (cabinetsWidth cabinetsHeight lanPorts circuits220v : Nat) : List Cell :=
  let totalCabinets := cabinetsWidth * cabinetsHeight
  let portAssignments := generateAssignments totalCabinets lanPorts
  let circuitAssignments := generateAssignments totalCabinets circuits220v
  (List.range cabinetsHeight).flatMap fun y =>
    (List.range cabinetsWidth).map fun x =>
      let s := snakeIndex x y cabinetsHeight
      { x := x, y := y, snakeIndex := s,
        portId := portAssignments[s]?,
        circuitId := circuitAssignments[s]? }

/-- One element of `activeCircuits` (Visualizer.tsx lines 185-191). -/
structure Circuit where
  id : Nat
  count : Nat
  amps : ℚ
deriving DecidableEq, Repr

/-- One element of `mccbGroups` (Visualizer.tsx lines 206-211). -/
structure MccbGroup where
  id : Nat
  circuits : List Circuit
  totalAmps : ℚ
  size : ℚ
deriving DecidableEq, Repr

/-- The `standardSizes` MCCB table (Visualizer.tsx line 202). -/
def MCCB_STANDARD_SIZES : List ℚ := [32, 40, 63, 80, 100, 125, 160, 200, 250, 400]

/-- `CIRCUITS_PER_MCCB` (Visualizer.tsx line 194). -/
def CIRCUITS_PER_MCCB : Nat := 6

/-- `mccbGroups` (Visualizer.tsx lines 195-212).  The JS loop runs
`i = 0, 6, 12, …` while `i < activeCircuits.length`, so it makes
`⌈length / 6⌉ = (length + 5) / 6` iterations; iteration `k` works on
`slice(6k, 6k+6) = (drop (6k)).take 6` and emits id `k + 1 = i/6 + 1`. -/
def mccbGroups (activeCircuits : List Circuit) : List MccbGroup :=
  (List.range ((activeCircuits.length + (CIRCUITS_PER_MCCB - 1)) / CIRCUITS_PER_MCCB)).map
    fun k =>
      let groupCircuits := (activeCircuits.drop (k * CIRCUITS_PER_MCCB)).take CIRCUITS_PER_MCCB
      let totalAmps := (groupCircuits.map Circuit.amps).sum
      let required := totalAmps * (125/100)
      let size := (MCCB_STANDARD_SIZES.find? fun s => decide (required ≤ s)).getD 400
      { id := k + 1, circuits := groupCircuits, totalAmps := totalAmps, size := size }

/-! ### Lemmas about `generateAssignments` -/

theorem sum_map_ite_range (b r : Nat) :
    ∀ n, ((List.range n).map fun i => if i < r then b + 1 else b).sum = n * b + min r n := by
  intro n
  induction n with
  | zero => simp
  | succ n ih =>
    rw [List.range_succ, List.map_append, List.sum_append, ih]
    have hsm : (n + 1) * b = n * b + b := Nat.succ_mul n b
    by_cases h : n < r <;> simp [h] <;> omega

theorem count_flatMap_replicate (sz : Nat → Nat) :
    ∀ n g, ((List.range n).flatMap fun i => List.replicate (sz i) i).count g =
      if g < n then sz g else 0 := by
  intro n
  induction n with
  | zero => simp
  | succ n ih =>
    intro g
    rw [List.range_succ, List.flatMap_append, List.count_append, ih]
    rcases Nat.lt_trichotomy g n with h | h | h
    · simp [h, Nat.lt_succ_of_lt h, List.count_replicate, Nat.ne_of_gt h]
    · subst h
      simp [List.count_replicate]
    · have h1 : ¬ g < n := by omega
      have h2 : ¬ g < n + 1 := by omega
      simp [h1, h2, List.count_replicate, Nat.ne_of_lt h]

theorem generateAssignments_length (totalItems groupCount : Nat) :
    (generateAssignments totalItems groupCount).length = totalItems := by
  simp only [generateAssignments]
  rw [List.length_take]
  simp only [List.length_append, List.length_replicate]
  omega

theorem generateAssignments_eq (totalItems groupCount : Nat) (h : 1 ≤ groupCount) :
    generateAssignments totalItems groupCount =
      (List.range groupCount).flatMap fun i =>
        List.replicate
          (if i < totalItems % groupCount then totalItems / groupCount + 1
           else totalItems / groupCount) i := by
  have hlen : ((List.range groupCount).flatMap fun i =>
      List.replicate
        (if i < totalItems % groupCount then totalItems / groupCount + 1
         else totalItems / groupCount) i).length = totalItems := by
    rw [List.length_flatMap]
    have hmap : List.map
        (List.length ∘ fun i =>
          List.replicate
            (if i < totalItems % groupCount then totalItems / groupCount + 1
             else totalItems / groupCount) i) (List.range groupCount) =
        List.map (fun i =>
          if i < totalItems % groupCount then totalItems / groupCount + 1
          else totalItems / groupCount) (List.range groupCount) := by
      simp [Function.comp_def]
    rw [hmap, sum_map_ite_range]
    have hr : totalItems % groupCount < groupCount := Nat.mod_lt _ h
    have hdm := Nat.div_add_mod totalItems groupCount
    omega
  simp only [generateAssignments]
  exact List.take_left' hlen

theorem generateAssignments_count (totalItems groupCount : Nat) (h : 1 ≤ groupCount)
    (g : Nat) :
    (generateAssignments totalItems groupCount).count g =
      if g < groupCount then
        (if g < totalItems % groupCount then totalItems / groupCount + 1
         else totalItems / groupCount)
      else 0 := by
  rw [generateAssignments_eq totalItems groupCount h]
  exact count_flatMap_replicate _ groupCount g

theorem generateAssignments_mem (totalItems groupCount : Nat) (h : 1 ≤ groupCount) :
    ∀ g ∈ generateAssignments totalItems groupCount, g < groupCount := by
  intro g hg
  rw [generateAssignments_eq totalItems groupCount h, List.mem_flatMap] at hg
  obtain ⟨i, hi, hrep⟩ := hg
  rw [List.mem_range] at hi
  rw [List.eq_of_mem_replicate hrep]
  exact hi

/-- Claim C1: for every `totalItems ≥ 0` and `groupCount ≥ 1`,
`generateAssignments` returns a sequence of exactly `totalItems` group ids;
each group id in `[0, groupCount)` occurs `⌊totalItems/groupCount⌋` or
`⌊totalItems/groupCount⌋ + 1` times, with exactly the first
`totalItems % groupCount` ids (in ascending id order) receiving the extra
occurrence; the group counts sum to `totalItems`; and for `totalItems = 11`,
`groupCount = 4` the per-group counts in id order are `[3, 3, 3, 2]`. -/
theorem generateAssignments_balanced (totalItems groupCount : Nat)
    (h : 1 ≤ groupCount) :
    (generateAssignments totalItems groupCount).length = totalItems ∧
    (∀ g, g < groupCount →
      (generateAssignments totalItems groupCount).count g =
        (if g < totalItems % groupCount then totalItems / groupCount + 1
         else totalItems / groupCount)) ∧
    (∀ g ∈ generateAssignments totalItems groupCount, g < groupCount) ∧
    ((List.range groupCount).map fun g =>
        (generateAssignments totalItems groupCount).count g).sum = totalItems ∧
    ((List.range 4).map fun g => (generateAssignments 11 4).count g) = [3, 3, 3, 2] := by
  refine ⟨generateAssignments_length totalItems groupCount, ?_,
    generateAssignments_mem totalItems groupCount h, ?_, by decide⟩
  · intro g hg
    rw [generateAssignments_count totalItems groupCount h g, if_pos hg]
  · have hmap : ((List.range groupCount).map fun g =>
        (generateAssignments totalItems groupCount).count g) =
        (List.range groupCount).map fun g =>
          if g < totalItems % groupCount then totalItems / groupCount + 1
          else totalItems / groupCount := by
      apply List.map_congr_left
      intro g hg
      rw [List.mem_range] at hg
      rw [generateAssignments_count totalItems groupCount h g, if_pos hg]
    rw [hmap, sum_map_ite_range]
    have hr : totalItems % groupCount < groupCount := Nat.mod_lt _ h
    have hdm := Nat.div_add_mod totalItems groupCount
    omega

/-- Witness for C1 at `totalItems = 11`, `groupCount = 4`. -/
theorem generateAssignments_balanced_witness :
    (1 ≤ 4) ∧
    ((List.range 4).map fun g => (generateAssignments 11 4).count g) = [3, 3, 3, 2] :=
  ⟨by decide, (generateAssignments_balanced 11 4 (by decide)).2.2.2.2⟩

/-! ### Lemmas about `snakeIndex` -/

theorem snakeIndex_lt (x y W H : Nat) (hx : x < W) (hy : y < H) :
    snakeIndex x y H < W * H := by
  have hxy : snakeIndex x y H < (x + 1) * H := by
    have hsm : (x + 1) * H = x * H + H := Nat.succ_mul x H
    unfold snakeIndex
    split <;> omega
  calc snakeIndex x y H < (x + 1) * H := hxy
    _ ≤ W * H := Nat.mul_le_mul_right H hx

theorem snakeIndex_div (x y H : Nat) (hy : y < H) : snakeIndex x y H / H = x := by
  have hH : 0 < H := Nat.lt_of_le_of_lt (Nat.zero_le y) hy
  unfold snakeIndex
  split
  · rw [Nat.mul_comm, Nat.mul_add_div hH, Nat.div_eq_of_lt hy, Nat.add_zero]
  · have he : H - 1 - y < H := by omega
    rw [Nat.mul_comm, Nat.mul_add_div hH, Nat.div_eq_of_lt he, Nat.add_zero]

theorem snakeIndex_mod (x y H : Nat) (hy : y < H) :
    snakeIndex x y H % H = if x % 2 = 0 then y else H - 1 - y := by
  have hH : 0 < H := Nat.lt_of_le_of_lt (Nat.zero_le y) hy
  by_cases h : x % 2 = 0 <;> simp only [snakeIndex, h, if_true, if_false]
  · rw [Nat.mul_comm, Nat.mul_add_mod, Nat.mod_eq_of_lt hy]
  · have he : H - 1 - y < H := by omega
    rw [Nat.mul_comm, Nat.mul_add_mod, Nat.mod_eq_of_lt he]

theorem snakeIndex_inj (x₁ y₁ x₂ y₂ H : Nat) (hy₁ : y₁ < H) (hy₂ : y₂ < H)
    (heq : snakeIndex x₁ y₁ H = snakeIndex x₂ y₂ H) : x₁ = x₂ ∧ y₁ = y₂ := by
  have hx : x₁ = x₂ := by
    rw [← snakeIndex_div x₁ y₁ H hy₁, ← snakeIndex_div x₂ y₂ H hy₂, heq]
  subst hx
  refine ⟨rfl, ?_⟩
  have hm₁ := snakeIndex_mod x₁ y₁ H hy₁
  have hm₂ := snakeIndex_mod x₁ y₂ H hy₂
  rw [heq, hm₂] at hm₁
  by_cases h : x₁ % 2 = 0 <;> simp only [h, if_true, if_false] at hm₁ <;> omega

theorem snakeIndex_surj (W H k : Nat) (hH : 1 ≤ H) (hk : k < W * H) :
    ∃ x y, x < W ∧ y < H ∧ snakeIndex x y H = k := by
  have hH0 : 0 < H := hH
  have hkH : k % H < H := Nat.mod_lt k hH0
  have hdm : H * (k / H) + k % H = k := Nat.div_add_mod k H
  have hxW : k / H < W := (Nat.div_lt_iff_lt_mul hH0).mpr hk
  by_cases hp : (k / H) % 2 = 0
  · refine ⟨k / H, k % H, hxW, hkH, ?_⟩
    unfold snakeIndex
    rw [if_pos hp, Nat.mul_comm]
    exact hdm
  · refine ⟨k / H, H - 1 - k % H, hxW, by omega, ?_⟩
    unfold snakeIndex
    rw [if_neg hp]
    have h2 : H - 1 - (H - 1 - k % H) = k % H := by omega
    rw [h2, Nat.mul_comm]
    exact hdm

/-- Claim C2: for every `cabinetsWidth ≥ 1` and `cabinetsHeight ≥ 1`, the snake
index is a bijection from the grid cells onto `{0, …, W*H - 1}`: every value is
in range, no two distinct cells collide, and every index in range is hit. -/
theorem snakeIndex_bijection (cabinetsWidth cabinetsHeight : Nat)
    (hW : 1 ≤ cabinetsWidth) (hH : 1 ≤ cabinetsHeight) :
    (∀ x y, x < cabinetsWidth → y < cabinetsHeight →
      snakeIndex x y cabinetsHeight < cabinetsWidth * cabinetsHeight) ∧
    (∀ x₁ y₁ x₂ y₂, x₁ < cabinetsWidth → y₁ < cabinetsHeight →
      x₂ < cabinetsWidth → y₂ < cabinetsHeight →
      snakeIndex x₁ y₁ cabinetsHeight = snakeIndex x₂ y₂ cabinetsHeight →
      x₁ = x₂ ∧ y₁ = y₂) ∧
    (∀ k, k < cabinetsWidth * cabinetsHeight →
      ∃ x y, x < cabinetsWidth ∧ y < cabinetsHeight ∧ snakeIndex x y cabinetsHeight = k) :=
  ⟨fun x y hx hy => snakeIndex_lt x y cabinetsWidth cabinetsHeight hx hy,
   fun x₁ y₁ x₂ y₂ _ hy₁ _ hy₂ heq => snakeIndex_inj x₁ y₁ x₂ y₂ cabinetsHeight hy₁ hy₂ heq,
   fun k hk => snakeIndex_surj cabinetsWidth cabinetsHeight k hH hk⟩

/-- Witness for C2 on the 3 × 2 grid. -/
theorem snakeIndex_bijection_witness :
    (∀ x y, x < 3 → y < 2 → snakeIndex x y 2 < 3 * 2) ∧
    (∀ x₁ y₁ x₂ y₂, x₁ < 3 → y₁ < 2 → x₂ < 3 → y₂ < 2 →
      snakeIndex x₁ y₁ 2 = snakeIndex x₂ y₂ 2 → x₁ = x₂ ∧ y₁ = y₂) ∧
    (∀ k, k < 3 * 2 → ∃ x y, x < 3 ∧ y < 2 ∧ snakeIndex x y 2 = k) :=
  snakeIndex_bijection 3 2 (by decide) (by decide)

/-! ### Lemmas about `gridCells` -/

/-- Claim C4: for every grid with at least one cabinet and `lanPorts ≥ 1`,
`circuits220v ≥ 1`, every cell of `gridData.cells` has a snake index that is a
valid index into both assignment sequences (which have length `totalCabinets`),
and hence exactly one `portId` in `[0, lanPorts)` and exactly one `circuitId`
in `[0, circuits220v)`; no lookup is out of bounds. -/
theorem gridCells_ids (cabinetsWidth cabinetsHeight lanPorts circuits220v : Nat)
    (hWH : 1 ≤ cabinetsWidth * cabinetsHeight)
    (hp : 1 ≤ lanPorts) (hc : 1 ≤ circuits220v) :
    (generateAssignments (cabinetsWidth * cabinetsHeight) lanPorts).length =
      cabinetsWidth * cabinetsHeight ∧
    (generateAssignments (cabinetsWidth * cabinetsHeight) circuits220v).length =
      cabinetsWidth * cabinetsHeight ∧
    ∀ cell ∈ gridCells cabinetsWidth cabinetsHeight lanPorts circuits220v,
      cell.snakeIndex < cabinetsWidth * cabinetsHeight ∧
      (∃ p, cell.portId = some p ∧ p < lanPorts) ∧
      (∃ c, cell.circuitId = some c ∧ c < circuits220v) := by
  refine ⟨generateAssignments_length _ _, generateAssignments_length _ _, ?_⟩
  intro cell hcell
  simp only [gridCells, List.mem_flatMap, List.mem_map, List.mem_range] at hcell
  obtain ⟨y, hy, x, hx, rfl⟩ := hcell
  have hs : snakeIndex x y cabinetsHeight < cabinetsWidth * cabinetsHeight :=
    snakeIndex_lt x y _ _ hx hy
  refine ⟨hs, ?_, ?_⟩
  · have hslen : snakeIndex x y cabinetsHeight <
        (generateAssignments (cabinetsWidth * cabinetsHeight) lanPorts).length := by
      rw [generateAssignments_length]
      exact hs
    have hget := List.getElem?_eq_getElem hslen
    exact ⟨_, hget, generateAssignments_mem _ _ hp _ (List.getElem?_mem hget)⟩
  · have hslen : snakeIndex x y cabinetsHeight <
        (generateAssignments (cabinetsWidth * cabinetsHeight) circuits220v).length := by
      rw [generateAssignments_length]
      exact hs
    have hget := List.getElem?_eq_getElem hslen
    exact ⟨_, hget, generateAssignments_mem _ _ hc _ (List.getElem?_mem hget)⟩

/-- Witness for C4 on a 3 × 2 grid with 2 ports and 3 circuits. -/
theorem gridCells_ids_witness :
    (generateAssignments (3 * 2) 2).length = 3 * 2 ∧
    (generateAssignments (3 * 2) 3).length = 3 * 2 ∧
    ∀ cell ∈ gridCells 3 2 2 3,
      cell.snakeIndex < 3 * 2 ∧
      (∃ p, cell.portId = some p ∧ p < 2) ∧
      (∃ c, cell.circuitId = some c ∧ c < 3) :=
  gridCells_ids 3 2 2 3 (by decide) (by decide) (by decide)

/-! ### Scenario A -/

/-- Claim C3: `calculateRequirements 5000 3000 2.5 indoor` returns exactly
cabinets 10 × 3 = 30, resolution 2000 × 1200 classified "FHD", 5 LAN ports on a
"VX16s" controller, 7500 W peak, 7500/220 A (≈ 34.09), 3 circuits, a 50 A main
breaker, and 15 m². -/
theorem calculateRequirements_scenarioA :
    (calculateRequirements 5000 3000 (5/2) .indoor).cabinetsWidth = 10 ∧
    (calculateRequirements 5000 3000 (5/2) .indoor).cabinetsHeight = 3 ∧
    (calculateRequirements 5000 3000 (5/2) .indoor).totalCabinets = 30 ∧
    (calculateRequirements 5000 3000 (5/2) .indoor).resolutionWidth = 2000 ∧
    (calculateRequirements 5000 3000 (5/2) .indoor).resolutionHeight = 1200 ∧
    (calculateRequirements 5000 3000 (5/2) .indoor).resolutionClass = "FHD" ∧
    (calculateRequirements 5000 3000 (5/2) .indoor).lanPorts = 5 ∧
    (calculateRequirements 5000 3000 (5/2) .indoor).controller = "VX16s" ∧
    (calculateRequirements 5000 3000 (5/2) .indoor).peakPowerWatts = 7500 ∧
    (calculateRequirements 5000 3000 (5/2) .indoor).amps220v = 7500 / 220 ∧
    (calculateRequirements 5000 3000 (5/2) .indoor).circuits220v = 3 ∧
    (calculateRequirements 5000 3000 (5/2) .indoor).mainBreakerSize = 50 ∧
    (calculateRequirements 5000 3000 (5/2) .indoor).areaSqM = 15 := by
  decide

/-! ### Input rejection in the App results memo -/

/-- Claim C5, counterexample: a negative width is NOT rejected.  JS `!w` is
false for `w = -500` (only `0`, `NaN` and the empty string are falsy), so the
App memo computes one `CalculationResult` per supported pitch: 7 results are
produced for `width = -500`, although `-500` is non-positive. -/
theorem appResults_negative_width_not_rejected :
    ¬ (0 : ℚ) < -500 ∧ (appResults (-500) 3000 .indoor).length = 7 := by
  constructor
  · decide
  · have hguard : ¬ ((-500 : ℚ) = 0 ∨ (3000 : ℚ) = 0) := by decide
    rw [appResults, if_neg hguard, List.length_map]
    decide

/-- Claim C5, amended: a width or height equal to `0` (the only falsy numeric
input; an empty field is coerced to `0` by `Number('')`) is rejected by the
guard before any `calculateRequirements` call, and the results list is empty.
Negative dimensions are not rejected. -/
theorem appResults_zero_rejected (width height : ℚ) (environment : Environment)
    (h : width = 0 ∨ height = 0) :
    appResults width height environment = [] := by
  rw [appResults, if_pos h]

/-- Witness for the amended C5 at `width = 0`, `height = 3000`. -/
theorem appResults_zero_rejected_witness :
    ((0 : ℚ) = 0 ∨ (3000 : ℚ) = 0) ∧ appResults 0 3000 .indoor = [] :=
  ⟨Or.inl rfl, appResults_zero_rejected 0 3000 .indoor (Or.inl rfl)⟩

/-! ### Saturating table lookup (`find?` on an ascending table) -/

theorem find_ge_spec (l : List ℚ) (t x : ℚ)
    (hx : l.find? (fun s => decide (t ≤ s)) = some x) : x ∈ l ∧ t ≤ x := by
  refine ⟨List.mem_of_find?_eq_some hx, ?_⟩
  have h := List.find?_some hx
  simpa using h

theorem find_ge_min (l : List ℚ) (hl : l.Pairwise (· ≤ ·)) (t x : ℚ)
    (hx : l.find? (fun s => decide (t ≤ s)) = some x) :
    ∀ y ∈ l, t ≤ y → x ≤ y := by
  induction l with
  | nil => simp at hx
  | cons a as ih =>
    by_cases h : t ≤ a
    · rw [List.find?_cons_of_pos _ (by simpa using h)] at hx
      obtain rfl : a = x := by simpa using hx
      intro y hy _
      rcases List.mem_cons.mp hy with rfl | hy
      · exact le_refl y
      · exact (List.pairwise_cons.mp hl).1 y hy
    · rw [List.find?_cons_of_neg _ (by simpa using h)] at hx
      intro y hy hty
      rcases List.mem_cons.mp hy with rfl | hy
      · exact absurd hty h
      · exact ih (List.pairwise_cons.mp hl).2 hx y hy hty

theorem find_ge_none (l : List ℚ) (t : ℚ)
    (hn : l.find? (fun s => decide (t ≤ s)) = none) : ∀ y ∈ l, ¬ t ≤ y := by
  intro y hy
  have h := List.find?_eq_none.mp hn y hy
  simpa using h

theorem breaker_table_sorted : STANDARD_BREAKER_SIZES.Pairwise (· ≤ ·) := by
  decide

/-- Packaged behaviour of the saturating lookup
`(l.find? (· ≥ t)).getD dflt` on an ascending table containing `dflt`. -/
theorem getD_find_ge_spec (l : List ℚ) (hl : l.Pairwise (· ≤ ·)) (dflt t : ℚ)
    (hd : dflt ∈ l) :
    ((l.find? fun s => decide (t ≤ s)).getD dflt ∈ l) ∧
    (∀ s ∈ l, t ≤ s →
      (t ≤ (l.find? fun s => decide (t ≤ s)).getD dflt ∧
        (l.find? fun s => decide (t ≤ s)).getD dflt ≤ s)) ∧
    ((∀ s ∈ l, s < t) → (l.find? fun s => decide (t ≤ s)).getD dflt = dflt) := by
  rcases hfind : l.find? (fun s => decide (t ≤ s)) with _ | x
  · have hnone := find_ge_none l t hfind
    simp only [hfind, Option.getD_none]
    exact ⟨hd, fun s hs hts => absurd hts (hnone s hs), fun _ => trivial⟩
  · obtain ⟨hmem, hreq⟩ := find_ge_spec l t x hfind
    have hmin := find_ge_min l hl t x hfind
    simp only [hfind, Option.getD_some]
    exact ⟨hmem, fun s hs hts => ⟨hreq, hmin s hs hts⟩,
      fun hall => absurd hreq (not_le.mpr (hall x hmem))⟩

/-- Claim C6: for every positive width/height and supported pitch,
`mainBreakerSize` is a member of the standard table; whenever some table entry
is at least `amps220v × 1.25`, the selected size is at least the requirement
and no larger than any qualifying entry (i.e. it is the smallest qualifying
entry); and if no entry qualifies it saturates at the table maximum 1200 with
no error. -/
theorem mainBreakerSize_spec (widthMm heightMm pitch : ℚ) (environment : Environment)
    (hw : 0 < widthMm) (hh : 0 < heightMm) (hp : pitch ∈ PIXEL_PITCHES) :
    (calculateRequirements widthMm heightMm pitch environment).mainBreakerSize ∈
        STANDARD_BREAKER_SIZES ∧
    (∀ s ∈ STANDARD_BREAKER_SIZES,
      (calculateRequirements widthMm heightMm pitch environment).amps220v * (125/100) ≤ s →
      ((calculateRequirements widthMm heightMm pitch environment).amps220v * (125/100) ≤
          (calculateRequirements widthMm heightMm pitch environment).mainBreakerSize ∧
        (calculateRequirements widthMm heightMm pitch environment).mainBreakerSize ≤ s)) ∧
    ((∀ s ∈ STANDARD_BREAKER_SIZES,
        s < (calculateRequirements widthMm heightMm pitch environment).amps220v * (125/100)) →
      (calculateRequirements widthMm heightMm pitch environment).mainBreakerSize = 1200) := by
  have hmb : (calculateRequirements widthMm heightMm pitch environment).mainBreakerSize =
      (STANDARD_BREAKER_SIZES.find? fun s =>
        decide ((calculateRequirements widthMm heightMm pitch environment).amps220v *
          (125/100) ≤ s)).getD 1200 := rfl
  rcases hfind : STANDARD_BREAKER_SIZES.find? (fun s =>
      decide ((calculateRequirements widthMm heightMm pitch environment).amps220v *
        (125/100) ≤ s)) with _ | x
  · have hnone := find_ge_none STANDARD_BREAKER_SIZES _ hfind
    rw [hmb, hfind]
    refine ⟨by decide, ?_, fun _ => rfl⟩
    intro s hs hreq
    exact absurd hreq (hnone s hs)
  · obtain ⟨hmem, hreq⟩ := find_ge_spec STANDARD_BREAKER_SIZES _ x hfind
    have hmin := find_ge_min STANDARD_BREAKER_SIZES breaker_table_sorted _ x hfind
    rw [hmb, hfind]
    refine ⟨hmem, ?_, ?_⟩
    · intro s hs hsreq
      exact ⟨hreq, hmin s hs hsreq⟩
    · intro hall
      exact absurd hreq (not_le.mpr (hall x hmem))

/-- Witness for C6 at Scenario A's inputs. -/
theorem mainBreakerSize_spec_witness :
    (0 : ℚ) < 5000 ∧ (0 : ℚ) < 3000 ∧ (5/2 : ℚ) ∈ PIXEL_PITCHES ∧
    ((calculateRequirements 5000 3000 (5/2) .indoor).mainBreakerSize ∈
        STANDARD_BREAKER_SIZES ∧
    (∀ s ∈ STANDARD_BREAKER_SIZES,
      (calculateRequirements 5000 3000 (5/2) .indoor).amps220v * (125/100) ≤ s →
      ((calculateRequirements 5000 3000 (5/2) .indoor).amps220v * (125/100) ≤
          (calculateRequirements 5000 3000 (5/2) .indoor).mainBreakerSize ∧
        (calculateRequirements 5000 3000 (5/2) .indoor).mainBreakerSize ≤ s)) ∧
    ((∀ s ∈ STANDARD_BREAKER_SIZES,
        s < (calculateRequirements 5000 3000 (5/2) .indoor).amps220v * (125/100)) →
      (calculateRequirements 5000 3000 (5/2) .indoor).mainBreakerSize = 1200)) :=
  ⟨by decide, by decide, by decide,
    mainBreakerSize_spec 5000 3000 (5/2) .indoor (by decide) (by decide) (by decide)⟩

/-! ### Lemmas about `mccbGroups` -/

theorem mccb_table_sorted : MCCB_STANDARD_SIZES.Pairwise (· ≤ ·) := by
  decide

theorem flatMap_chunks (n : Nat) :
    ∀ cs : List Circuit, cs.length ≤ n * 6 →
      (List.range n).flatMap (fun k => (cs.drop (k * 6)).take 6) = cs := by
  induction n with
  | zero =>
    intro cs h
    simp only [Nat.zero_mul, Nat.le_zero] at h
    simp [List.eq_nil_of_length_eq_zero h]
  | succ n ih =>
    intro cs h
    rw [List.range_succ_eq_map, List.flatMap_cons, List.flatMap_map]
    have hfun : (fun a => ((cs.drop (a.succ * 6)).take 6)) =
        fun a => (((cs.drop 6).drop (a * 6)).take 6) := by
      funext a
      rw [List.drop_drop]
      have hmul : a.succ * 6 = 6 + a * 6 := by
        rw [Nat.succ_mul]
        omega
      rw [hmul]
    rw [hfun, ih (cs.drop 6) (by simp [List.length_drop]; omega)]
    simp [List.take_append_drop]

theorem mccbGroups_length (activeCircuits : List Circuit) :
    (mccbGroups activeCircuits).length = (activeCircuits.length + 5) / 6 := by
  simp [mccbGroups, CIRCUITS_PER_MCCB]

/-- Claim C7: the MCCB grouping partitions the ordered circuit sequence into
consecutive chunks of at most 6 (every chunk before the last has exactly 6);
each block's `totalAmps` is the sum of its members' amps; each block's breaker
`size` is the smallest entry of the table `{32,…,400}` at least
`totalAmps × 1.25`, saturating at 400; ids are 1-based by chunk position; and
3 circuits yield exactly one block containing all 3. -/
theorem mccbGroups_spec (activeCircuits : List Circuit) :
    ((mccbGroups activeCircuits).flatMap MccbGroup.circuits = activeCircuits) ∧
    (∀ g ∈ mccbGroups activeCircuits,
      g.circuits.length ≤ 6 ∧ g.circuits ≠ [] ∧
      g.totalAmps = (g.circuits.map Circuit.amps).sum ∧
      g.size ∈ MCCB_STANDARD_SIZES ∧
      (∀ s ∈ MCCB_STANDARD_SIZES, g.totalAmps * (125/100) ≤ s →
        (g.totalAmps * (125/100) ≤ g.size ∧ g.size ≤ s)) ∧
      ((∀ s ∈ MCCB_STANDARD_SIZES, s < g.totalAmps * (125/100)) → g.size = 400)) ∧
    (∀ g ∈ (mccbGroups activeCircuits).dropLast, g.circuits.length = 6) ∧
    ((mccbGroups activeCircuits).map MccbGroup.id =
      (List.range (mccbGroups activeCircuits).length).map fun k => k + 1) ∧
    (activeCircuits.length = 3 →
      (mccbGroups activeCircuits).length = 1 ∧
      ∀ g ∈ mccbGroups activeCircuits, g.circuits = activeCircuits) := by
  refine ⟨?_, ?_, ?_, ?_, ?_⟩
  · rw [mccbGroups]
    rw [List.flatMap_map]
    simp only [CIRCUITS_PER_MCCB]
    exact flatMap_chunks _ activeCircuits (by omega)
  · intro g hg
    simp only [mccbGroups, CIRCUITS_PER_MCCB, List.mem_map, List.mem_range] at hg
    obtain ⟨k, hk, rfl⟩ := hg
    have hk6 : k * 6 < activeCircuits.length := by omega
    have hlen : ((activeCircuits.drop (k * 6)).take 6).length =
        min 6 (activeCircuits.length - k * 6) := by
      simp [List.length_take, List.length_drop]
    have hspec := getD_find_ge_spec MCCB_STANDARD_SIZES mccb_table_sorted 400
      ((((activeCircuits.drop (k * 6)).take 6).map Circuit.amps).sum * (125/100))
      (by decide)
    exact ⟨by rw [hlen]; omega,
      List.ne_nil_of_length_pos (by rw [hlen]; omega),
      rfl, hspec.1, hspec.2.1, hspec.2.2⟩
  · intro g hg
    rw [List.dropLast_eq_take] at hg
    simp only [mccbGroups, CIRCUITS_PER_MCCB, List.length_map, List.length_range] at hg
    rw [← List.map_take, List.take_range] at hg
    simp only [List.mem_map, List.mem_range] at hg
    obtain ⟨k, hk, rfl⟩ := hg
    show ((activeCircuits.drop (k * 6)).take 6).length = 6
    have hlen : ((activeCircuits.drop (k * 6)).take 6).length =
        min 6 (activeCircuits.length - k * 6) := by
      simp [List.length_take, List.length_drop]
    rw [hlen]; omega
  · simp only [mccbGroups, CIRCUITS_PER_MCCB, List.map_map, List.length_map,
      List.length_range]
    apply List.map_congr_left
    intro k _
    rfl
  · intro h3
    constructor
    · rw [mccbGroups_length, h3]
    · intro g hg
      simp only [mccbGroups, CIRCUITS_PER_MCCB, h3, List.mem_map, List.mem_range] at hg
      obtain ⟨k, hk, rfl⟩ := hg
      have hk0 : k = 0 := by omega
      subst hk0
      simp only [Nat.zero_mul, List.drop_zero]
      exact List.take_of_length_le (by omega)

/-- Witness for C7 on a concrete 3-circuit list. -/
theorem mccbGroups_spec_witness :
    ((mccbGroups [⟨0, 5, 2⟩, ⟨1, 5, 2⟩, ⟨2, 4, 8/5⟩]).flatMap MccbGroup.circuits =
      [⟨0, 5, 2⟩, ⟨1, 5, 2⟩, ⟨2, 4, 8/5⟩]) ∧
    (∀ g ∈ mccbGroups [⟨0, 5, 2⟩, ⟨1, 5, 2⟩, ⟨2, 4, 8/5⟩],
      g.circuits.length ≤ 6 ∧ g.circuits ≠ [] ∧
      g.totalAmps = (g.circuits.map Circuit.amps).sum ∧
      g.size ∈ MCCB_STANDARD_SIZES ∧
      (∀ s ∈ MCCB_STANDARD_SIZES, g.totalAmps * (125/100) ≤ s →
        (g.totalAmps * (125/100) ≤ g.size ∧ g.size ≤ s)) ∧
      ((∀ s ∈ MCCB_STANDARD_SIZES, s < g.totalAmps * (125/100)) → g.size = 400)) ∧
    (∀ g ∈ (mccbGroups [⟨0, 5, 2⟩, ⟨1, 5, 2⟩, ⟨2, 4, 8/5⟩]).dropLast,
      g.circuits.length = 6) ∧
    ((mccbGroups [⟨0, 5, 2⟩, ⟨1, 5, 2⟩, ⟨2, 4, 8/5⟩]).map MccbGroup.id =
      (List.range (mccbGroups [⟨0, 5, 2⟩, ⟨1, 5, 2⟩, ⟨2, 4, 8/5⟩]).length).map
        fun k => k + 1) ∧
    (([⟨0, 5, 2⟩, ⟨1, 5, 2⟩, ⟨2, 4, (8:ℚ)/5⟩] : List Circuit).length = 3 →
      (mccbGroups [⟨0, 5, 2⟩, ⟨1, 5, 2⟩, ⟨2, 4, 8/5⟩]).length = 1 ∧
      ∀ g ∈ mccbGroups [⟨0, 5, 2⟩, ⟨1, 5, 2⟩, ⟨2, 4, 8/5⟩],
        g.circuits = [⟨0, 5, 2⟩, ⟨1, 5, 2⟩, ⟨2, 4, 8/5⟩]) :=
  mccbGroups_spec [⟨0, 5, 2⟩, ⟨1, 5, 2⟩, ⟨2, 4, 8/5⟩]

/-! ### Monotonicity in the pitch -/

theorem jsRound_mono {q r : ℚ} (h : q ≤ r) : jsRound q ≤ jsRound r := by
  rw [jsRound_eq, jsRound_eq]
  exact Int.floor_le_floor (by linarith)

theorem jsRound_nonneg {q : ℚ} (h : 0 ≤ q) : 0 ≤ jsRound q := by
  rw [jsRound_eq]
  exact Int.floor_nonneg.mpr (by linarith)

theorem jsFloor_mono {q r : ℚ} (h : q ≤ r) : jsFloor q ≤ jsFloor r := by
  rw [jsFloor_eq, jsFloor_eq]
  exact Int.floor_le_floor h

theorem jsCeil_mono {q r : ℚ} (h : q ≤ r) : jsCeil q ≤ jsCeil r := by
  rw [jsCeil_eq, jsCeil_eq]
  exact Int.ceil_le_ceil h

theorem jsCeil_pos {q : ℚ} (h : 0 < q) : 0 < jsCeil q := by
  rw [jsCeil_eq]
  exact Int.ceil_pos.mpr h

theorem pitch_pos : ∀ p ∈ PIXEL_PITCHES, 0 < p := by decide

theorem ppc_ge_one : ∀ p ∈ PIXEL_PITCHES, 1 ≤ pixelsPerCabinet p := by decide

/-- Claim C8: for fixed positive dimensions and environment, a finer supported
pitch `p₁ < p₂` never yields smaller `totalPixels`, `lanPorts` or
`circuits220v` than the coarser pitch. -/
theorem calculateRequirements_pitch_antitone (widthMm heightMm p₁ p₂ : ℚ)
    (environment : Environment) (hw : 0 < widthMm) (hh : 0 < heightMm)
    (h₁ : p₁ ∈ PIXEL_PITCHES) (h₂ : p₂ ∈ PIXEL_PITCHES) (hlt : p₁ < p₂) :
    (calculateRequirements widthMm heightMm p₂ environment).totalPixels ≤
      (calculateRequirements widthMm heightMm p₁ environment).totalPixels ∧
    (calculateRequirements widthMm heightMm p₂ environment).lanPorts ≤
      (calculateRequirements widthMm heightMm p₁ environment).lanPorts ∧
    (calculateRequirements widthMm heightMm p₂ environment).circuits220v ≤
      (calculateRequirements widthMm heightMm p₁ environment).circuits220v := by
  have hp₁ : 0 < p₁ := pitch_pos p₁ h₁
  have hp₂ : 0 < p₂ := pitch_pos p₂ h₂
  have hple : p₁ ≤ p₂ := le_of_lt hlt
  have hR : ∀ a : ℚ, 0 ≤ a → jsRound (a / p₂) ≤ jsRound (a / p₁) := fun a ha =>
    jsRound_mono (div_le_div_of_nonneg_left ha hp₁ hple)
  have hRnn : ∀ a : ℚ, 0 ≤ a → 0 ≤ jsRound (a / p₂) := fun a ha =>
    jsRound_nonneg (div_nonneg ha (le_of_lt hp₂))
  have hRnn₁ : ∀ a : ℚ, 0 ≤ a → 0 ≤ jsRound (a / p₁) := fun a ha =>
    jsRound_nonneg (div_nonneg ha (le_of_lt hp₁))
  refine ⟨?_, ?_, le_refl _⟩
  · show jsRound (widthMm / p₂) * jsRound (heightMm / p₂) ≤
      jsRound (widthMm / p₁) * jsRound (heightMm / p₁)
    exact mul_le_mul (hR _ (le_of_lt hw)) (hR _ (le_of_lt hh))
      (hRnn _ (le_of_lt hh)) (hRnn₁ _ (le_of_lt hw))
  · have hppc₂ : 1 ≤ pixelsPerCabinet p₂ := ppc_ge_one p₂ h₂
    have hppcle : pixelsPerCabinet p₂ ≤ pixelsPerCabinet p₁ := by
      unfold pixelsPerCabinet pixelsPerCabinetW pixelsPerCabinetH
      exact mul_le_mul (hR 500 (by norm_num)) (hR 1000 (by norm_num))
        (hRnn 1000 (by norm_num)) (hRnn₁ 500 (by norm_num))
    have hmaxCab : jsFloor (SAFE_PIXELS_PER_PORT / (pixelsPerCabinet p₁ : ℚ)) ≤
        jsFloor (SAFE_PIXELS_PER_PORT / (pixelsPerCabinet p₂ : ℚ)) := by
      apply jsFloor_mono
      apply div_le_div_of_nonneg_left
      · norm_num [SAFE_PIXELS_PER_PORT, MAX_PIXELS_PER_PORT, SAFE_CAPACITY_PERCENTAGE]
      · exact_mod_cast lt_of_lt_of_le zero_lt_one hppc₂
      · exact_mod_cast hppcle
    have heff : (max 1 (jsFloor (SAFE_PIXELS_PER_PORT / (pixelsPerCabinet p₁ : ℚ))) : ℤ) ≤
        max 1 (jsFloor (SAFE_PIXELS_PER_PORT / (pixelsPerCabinet p₂ : ℚ))) :=
      max_le_max (le_refl 1) hmaxCab
    have heff₁pos :
        (0 : ℤ) < max 1 (jsFloor (SAFE_PIXELS_PER_PORT / (pixelsPerCabinet p₁ : ℚ))) :=
      lt_of_lt_of_le zero_lt_one (le_max_left _ _)
    have hT : (0 : ℤ) ≤ jsCeil (widthMm / 500) * jsCeil (heightMm / 1000) :=
      le_of_lt (mul_pos (jsCeil_pos (div_pos hw (by norm_num)))
        (jsCeil_pos (div_pos hh (by norm_num))))
    show jsCeil (((jsCeil (widthMm / 500) * jsCeil (heightMm / 1000) : ℤ) : ℚ) /
        ((max 1 (jsFloor (SAFE_PIXELS_PER_PORT / (pixelsPerCabinet p₂ : ℚ))) : ℤ) : ℚ)) ≤
      jsCeil (((jsCeil (widthMm / 500) * jsCeil (heightMm / 1000) : ℤ) : ℚ) /
        ((max 1 (jsFloor (SAFE_PIXELS_PER_PORT / (pixelsPerCabinet p₁ : ℚ))) : ℤ) : ℚ))
    apply jsCeil_mono
    apply div_le_div_of_nonneg_left
    · exact_mod_cast hT
    · exact_mod_cast heff₁pos
    · exact_mod_cast heff

/-- Witness for C8 at `5000 × 3000`, indoor, pitches `1.25 < 2.5`. -/
theorem calculateRequirements_pitch_antitone_witness :
    (0 : ℚ) < 5000 ∧ (0 : ℚ) < 3000 ∧
    (5/4 : ℚ) ∈ PIXEL_PITCHES ∧ (5/2 : ℚ) ∈ PIXEL_PITCHES ∧ (5/4 : ℚ) < 5/2 ∧
    ((calculateRequirements 5000 3000 (5/2) .indoor).totalPixels ≤
      (calculateRequirements 5000 3000 (5/4) .indoor).totalPixels ∧
    (calculateRequirements 5000 3000 (5/2) .indoor).lanPorts ≤
      (calculateRequirements 5000 3000 (5/4) .indoor).lanPorts ∧
    (calculateRequirements 5000 3000 (5/2) .indoor).circuits220v ≤
      (calculateRequirements 5000 3000 (5/4) .indoor).circuits220v) :=
  ⟨by decide, by decide, by decide, by decide, by decide,
    calculateRequirements_pitch_antitone 5000 3000 (5/4) (5/2) .indoor
      (by decide) (by decide) (by decide) (by decide) (by decide)⟩

/-! ### Division guard and environment non-interference -/

/-- Claim C9: for every supported pitch, `pixelsPerCabinet =
round(500/pitch) * round(1000/pitch)` is at least 1, so the division
`SAFE_PIXELS_PER_PORT / pixelsPerCabinet` computing `maxCabinetsPerPort`
never divides by zero (the guard `pixelsPerCabinet ≥ 1` holds). -/
theorem pixelsPerCabinet_guard (pitch : ℚ) (hp : pitch ∈ PIXEL_PITCHES) :
    1 ≤ pixelsPerCabinet pitch ∧ ((pixelsPerCabinet pitch : ℤ) : ℚ) ≠ 0 := by
  have h1 := ppc_ge_one pitch hp
  refine ⟨h1, ?_⟩
  have h0 : (0 : ℤ) < pixelsPerCabinet pitch := lt_of_lt_of_le zero_lt_one h1
  exact_mod_cast ne_of_gt h0

/-- Witness for C9 at pitch 2.5. -/
theorem pixelsPerCabinet_guard_witness :
    (5/2 : ℚ) ∈ PIXEL_PITCHES ∧
    (1 ≤ pixelsPerCabinet (5/2) ∧ ((pixelsPerCabinet (5/2) : ℤ) : ℚ) ≠ 0) :=
  ⟨by decide, pixelsPerCabinet_guard (5/2) (by decide)⟩

/-- Claim C10 (implicit): for fixed positive dimensions and supported pitch,
the indoor and outdoor runs agree on every non-electrical field
(`resolutionWidth`, `resolutionHeight`, `resolutionClass`, `totalPixels`,
`cabinetsWidth`, `cabinetsHeight`, `totalCabinets`, `lanPorts`, `controller`,
`areaSqM`); the environment can influence only the electrical outputs. -/
theorem calculateRequirements_env_noninterference (widthMm heightMm pitch : ℚ)
    (hw : 0 < widthMm) (hh : 0 < heightMm) (hp : pitch ∈ PIXEL_PITCHES) :
    (calculateRequirements widthMm heightMm pitch .indoor).resolutionWidth =
      (calculateRequirements widthMm heightMm pitch .outdoor).resolutionWidth ∧
    (calculateRequirements widthMm heightMm pitch .indoor).resolutionHeight =
      (calculateRequirements widthMm heightMm pitch .outdoor).resolutionHeight ∧
    (calculateRequirements widthMm heightMm pitch .indoor).resolutionClass =
      (calculateRequirements widthMm heightMm pitch .outdoor).resolutionClass ∧
    (calculateRequirements widthMm heightMm pitch .indoor).totalPixels =
      (calculateRequirements widthMm heightMm pitch .outdoor).totalPixels ∧
    (calculateRequirements widthMm heightMm pitch .indoor).cabinetsWidth =
      (calculateRequirements widthMm heightMm pitch .outdoor).cabinetsWidth ∧
    (calculateRequirements widthMm heightMm pitch .indoor).cabinetsHeight =
      (calculateRequirements widthMm heightMm pitch .outdoor).cabinetsHeight ∧
    (calculateRequirements widthMm heightMm pitch .indoor).totalCabinets =
      (calculateRequirements widthMm heightMm pitch .outdoor).totalCabinets ∧
    (calculateRequirements widthMm heightMm pitch .indoor).lanPorts =
      (calculateRequirements widthMm heightMm pitch .outdoor).lanPorts ∧
    (calculateRequirements widthMm heightMm pitch .indoor).controller =
      (calculateRequirements widthMm heightMm pitch .outdoor).controller ∧
    (calculateRequirements widthMm heightMm pitch .indoor).areaSqM =
      (calculateRequirements widthMm heightMm pitch .outdoor).areaSqM :=
  ⟨rfl, rfl, rfl, rfl, rfl, rfl, rfl, rfl, rfl, rfl⟩

/-- Witness for C10 at Scenario A's dimensions and pitch 2.5. -/
theorem calculateRequirements_env_noninterference_witness :
    (0 : ℚ) < 5000 ∧ (0 : ℚ) < 3000 ∧ (5/2 : ℚ) ∈ PIXEL_PITCHES ∧
    ((calculateRequirements 5000 3000 (5/2) .indoor).resolutionWidth =
      (calculateRequirements 5000 3000 (5/2) .outdoor).resolutionWidth ∧
    (calculateRequirements 5000 3000 (5/2) .indoor).resolutionHeight =
      (calculateRequirements 5000 3000 (5/2) .outdoor).resolutionHeight ∧
    (calculateRequirements 5000 3000 (5/2) .indoor).resolutionClass =
      (calculateRequirements 5000 3000 (5/2) .outdoor).resolutionClass ∧
    (calculateRequirements 5000 3000 (5/2) .indoor).totalPixels =
      (calculateRequirements 5000 3000 (5/2) .outdoor).totalPixels ∧
    (calculateRequirements 5000 3000 (5/2) .indoor).cabinetsWidth =
      (calculateRequirements 5000 3000 (5/2) .outdoor).cabinetsWidth ∧
    (calculateRequirements 5000 3000 (5/2) .indoor).cabinetsHeight =
      (calculateRequirements 5000 3000 (5/2) .outdoor).cabinetsHeight ∧
    (calculateRequirements 5000 3000 (5/2) .indoor).totalCabinets =
      (calculateRequirements 5000 3000 (5/2) .outdoor).totalCabinets ∧
    (calculateRequirements 5000 3000 (5/2) .indoor).lanPorts =
      (calculateRequirements 5000 3000 (5/2) .outdoor).lanPorts ∧
    (calculateRequirements 5000 3000 (5/2) .indoor).controller =
      (calculateRequirements 5000 3000 (5/2) .outdoor).controller ∧
    (calculateRequirements 5000 3000 (5/2) .indoor).areaSqM =
      (calculateRequirements 5000 3000 (5/2) .outdoor).areaSqM) :=
  ⟨by decide, by decide, by decide,
    calculateRequirements_env_noninterference 5000 3000 (5/2)
      (by decide) (by decide) (by decide)⟩

end LedCalc
